import Mathlib

/-!
Shallow embedding of the MailAssist core (akmaier/MailAssist) in Lean 4,
covering the attachment-extraction subsystem (`mailassist/attachment_processor.py`),
the state ledger (`mailassist/state.py`) and the pipeline orchestrator
(`mailassist/processor.py`), together with the configuration values they
consume (`mailassist/config.py`).

Modelling conventions:
* Python byte strings become `List UInt8`; `len` becomes `List.length`.
* Python `str.join` over a list is embedded as the recursive `joinWith`.
* Fallible Python calls (anything that may raise) become `Except String`
  values; the exception's string representation is the `String` carried in
  the `error` case.
* The external libraries (zipfile/XML parsing, pypdf, imaplib, smtplib, the
  LLM HTTP client) are collaborators outside the core: they enter the model
  as oracle inputs — e.g. the format-specific text extractors appear as a
  function argument `extract`, and the parsed DOCX document appears as a
  list of paragraphs, each a list of optional text runs as produced by
  `ElementTree` (`node.text` may be `None`).
-/

/-- Embeds `AttachmentPolicy` from `mailassist/config.py`. Sizes are natural
numbers (Python ints used as byte counts). -/
structure AttachmentPolicy where
  include_pdf_docx : Bool := true
  max_attachment_size_mb : Nat := 10
  text_extraction_timeout : Nat := 30
deriving DecidableEq, Repr

/-- Embeds the `max_attachment_size_bytes` property of `AttachmentPolicy`. -/
def AttachmentPolicy.max_attachment_size_bytes (p : AttachmentPolicy) : Nat :=
  p.max_attachment_size_mb * 1024 * 1024

/-- Embeds `QueuePolicy` from `mailassist/config.py`. -/
structure QueuePolicy where
  delete_after_success : Bool := true
  archive_before_delete : Option String := none
deriving DecidableEq, Repr

/-- Embeds the dataclass `ProcessedAttachment` from
`mailassist/attachment_processor.py`. `text : Option String` models the
`Optional[str]` field (`none` = Python `None`). -/
structure ProcessedAttachment where
  filename : String
  content_type : String
  size : Nat
  text : Option String
  skipped : Bool := false
  reason : Option String := none
deriving DecidableEq, Repr

/-- One attachment part as yielded by `message.iter_attachments()`:
`filenameRaw` models `part.get_filename()` (`None` possible), `payloadRaw`
models `part.get_payload(decode=True)` (`None` possible), `content_type`
models `part.get_content_type()`. -/
structure AttachmentPart where
  filenameRaw : Option String
  content_type : String
  payloadRaw : Option (List UInt8)
deriving DecidableEq, Repr

/-- Embeds `part.get_filename() or "unnamed"`: Python's `or` replaces both
`None` and the empty string (falsy) with `"unnamed"`. -/
def attachmentFilename (part : AttachmentPart) : String :=
  match part.filenameRaw with
  | none => "unnamed"
  | some s => if s = "" then "unnamed" else s

/-- Embeds `part.get_payload(decode=True) or b""`. -/
def attachmentPayload (part : AttachmentPart) : List UInt8 :=
  part.payloadRaw.getD []

/-- Embeds `AttachmentProcessor.SUPPORTED_EXTENSIONS = {".pdf", ".docx"}`. -/
def SUPPORTED_EXTENSIONS : List String := [".pdf", ".docx"]

/-- Embeds Python's `sep.join(items)` (as in `"\n".join(paragraphs)`,
`" | ".join(...)` and `".".join(...)`). -/
def joinWith (sep : String) : List String → String
  | [] => ""
  | [x] => x
  | x :: y :: xs => x ++ sep ++ joinWith sep (y :: xs)

/-- Embeds Python `str.lower()` (character-wise lowering; the filenames and
extensions involved are ASCII). -/
def pyLower (s : String) : String :=
  String.mk (s.data.map Char.toLower)

/-- Embeds Python `str.endswith(pat)`. -/
def pyEndsWith (s pat : String) : Bool :=
  pat.data.isSuffixOf s.data

/-- Embeds Python `c in s` for a single character. -/
def pyContains (s : String) (c : Char) : Bool :=
  s.data.contains c

/-- Embeds Python `str.split(sep)` for a one-character separator, on the
character list. -/
def splitChar (c : Char) : List Char → List (List Char)
  | [] => [[]]
  | x :: xs =>
    match splitChar c xs with
    | [] => if x = c then [[], []] else [[x]]
    | h :: t => if x = c then [] :: h :: t else (x :: h) :: t

/-- Embeds Python `str.split(sep)` for a one-character separator. -/
def pySplit (s : String) (c : Char) : List String :=
  (splitChar c s.data).map String.mk

/-- Embeds `PurePosixPath(filename).suffix` as used by
`AttachmentProcessor._infer_extension`: the final `.`-portion of the last
path component, empty when the last dot is at position 0 or at the end of
the name. -/
def pathSuffix (filename : String) : String :=
  let name := (pySplit filename '/').getLastD ""
  let parts := pySplit name '.'
  if parts.length ≤ 1 then ""
  else
    let ext := parts.getLastD ""
    let stem := joinWith "." parts.dropLast
    if stem = "" ∨ ext = "" then "" else "." ++ ext

/-- Embeds the static method `AttachmentProcessor._infer_extension`:
an `endswith` check against each supported extension on the lower-cased
filename (the two checks cannot both match, so set iteration order is
immaterial), falling back to `Path(filename).suffix.lower()` when the
filename contains a dot, and `""` otherwise. -/
def infer_extension (filename : String) : String :=
  let lower := pyLower filename
  if pyEndsWith lower ".pdf" then ".pdf"
  else if pyEndsWith lower ".docx" then ".docx"
  else if pyContains filename '.' then pyLower (pathSuffix filename)
  else ""

/-- Embeds the per-part body of the loop in `AttachmentProcessor.process`
(`mailassist/attachment_processor.py`, lines 58-108). `extract` is the
oracle for `self._extract_text(extension, payload)`: `Except.error exc`
models a raised exception with message `exc`. The decision sequence is the
source's: forwarding-disabled, unsupported type, size over limit, then
extraction with its error and empty-text cases. -/
def processPart (policy : AttachmentPolicy)
    (extract : String → List UInt8 → Except String String)
    (part : AttachmentPart) : ProcessedAttachment :=
  let filename := attachmentFilename part
  let content_type := part.content_type
  let payload := attachmentPayload part
  let size := payload.length
  let metadata : ProcessedAttachment :=
    { filename := filename, content_type := content_type, size := size, text := none }
  if !policy.include_pdf_docx then
    { metadata with
        skipped := true,
        reason := some "Attachment forwarding disabled by configuration" }
  else
    let extension := infer_extension filename
    if extension ∉ SUPPORTED_EXTENSIONS then
      { metadata with skipped := true, reason := some "Unsupported file type" }
    else if size > policy.max_attachment_size_bytes then
      { metadata with
          skipped := true,
          reason := some "Attachment exceeds configured size limit" }
    else
      match extract extension payload with
      | Except.error exc =>
          { metadata with
              skipped := true,
              reason := some ("Extraction failed: " ++ exc) }
      | Except.ok text =>
          if text = "" then
            { metadata with
                skipped := true,
                reason := some "No textual content extracted" }
          else
            { metadata with text := some text }

/-- Embeds `AttachmentProcessor.process`: one `ProcessedAttachment` per
attachment part, in iteration order. -/
def AttachmentProcessor.process (policy : AttachmentPolicy)
    (extract : String → List UInt8 → Except String String)
    (parts : List AttachmentPart) : List ProcessedAttachment :=
  parts.map (processPart policy extract)

/-- Embeds the list comprehension
`[node.text for node in para.findall(".//w:t", namespaces) if node.text]`
inside `AttachmentProcessor._extract_docx_text`: a paragraph is the list of
its `w:t` nodes' texts (`ElementTree` gives `None` for an empty node), and
`if node.text` keeps exactly the runs that are neither `None` nor `""`. -/
def paragraphText (para : List (Option String)) : List String :=
  para.filterMap (fun t =>
    match t with
    | none => none
    | some s => if s = "" then none else some s)

/-- Embeds `AttachmentProcessor._extract_docx_text` from the point where the
document body has been read and parsed (the zip archive and XML parsing are
the external `zipfile`/`ElementTree` collaborators): collect the non-empty
text runs of each paragraph, append `"".join(texts)` for each paragraph
whose run list is non-empty, and join the collected paragraphs with
newlines. -/
def extract_docx_text (paras : List (List (Option String))) : String :=
  let paragraphs := paras.filterMap (fun para =>
    let texts := paragraphText para
    if texts.isEmpty then none else some (String.join texts))
  joinWith "\n" paragraphs

/-- Embeds Python `dict.update` on association lists (`payload.update(metadata)`
in `ProcessorState._write_entry`): a key already present keeps its position
and takes the new value; keys not present are appended in the update's
order. `extra` models a Python dict, so its keys are unique. -/
def dictUpdate (base extra : List (String × String)) : List (String × String) :=
  base.map (fun kv =>
    match extra.lookup kv.1 with
    | some v => (kv.1, v)
    | none => kv)
  ++ extra.filter (fun kv => (base.lookup kv.1).isNone)

/-- Embeds the payload construction of `ProcessorState._write_entry`
(`mailassist/state.py`, lines 25-31): base pairs `timestamp` and `uid`, then
`payload.update(metadata)` guarded by Python's truthiness test
`if metadata:` (skipped for `None` and for an empty dict). The timestamp is
a parameter standing for `datetime.now(timezone.utc).isoformat()`. -/
def writePayload (timestamp uid : String)
    (metadata : Option (List (String × String))) : List (String × String) :=
  let payload := [("timestamp", timestamp), ("uid", uid)]
  match metadata with
  | none => payload
  | some m => if m.isEmpty then payload else dictUpdate payload m

/-- Embeds `" | ".join(f"{key}={value}" for key, value in payload.items())`. -/
def renderEntryLine (payload : List (String × String)) : String :=
  joinWith " | " (payload.map (fun kv => kv.1 ++ "=" ++ kv.2))

/-- The contents of the two ledger files owned by `ProcessorState`. -/
structure LedgerFiles where
  deleted : String := ""
  failed : String := ""
deriving DecidableEq, Repr

/-- Embeds `ProcessorState._write_entry` acting on one file's content:
open in append mode and write the rendered line plus `"\n"`. -/
def writeEntry (timestamp uid : String)
    (metadata : Option (List (String × String))) (content : String) : String :=
  content ++ renderEntryLine (writePayload timestamp uid metadata) ++ "\n"

/-- Embeds `ProcessorState.record_deleted`. -/
def ProcessorState.record_deleted (timestamp uid : String)
    (metadata : Option (List (String × String))) (files : LedgerFiles) : LedgerFiles :=
  { files with deleted := writeEntry timestamp uid metadata files.deleted }

/-- Embeds `ProcessorState.record_failed`: `metadata = {"reason": reason}`. -/
def ProcessorState.record_failed (timestamp uid reason : String)
    (files : LedgerFiles) : LedgerFiles :=
  { files with failed := writeEntry timestamp uid (some [("reason", reason)]) files.failed }

/-- Embeds the dataclass `LLMReply` from `mailassist/llm_client.py`
(fields `to`, `subject`, `body_text`). -/
structure LLMReply where
  «to» : String
  subject : String
  body_text : String
deriving DecidableEq, Repr

/-- Embeds `MessageEnvelope` from `mailassist/imap_client.py`. The raw
`EmailMessage` is abstracted: `fromAddress` is the oracle value of
`parseaddr(message.get("From", ""))[1]` (the empty string when no address
parses), and body/attachment access goes through `MailCaps`. -/
structure MessageEnvelope where
  uid : String
  fromAddress : String
deriving DecidableEq, Repr

/-- The fallible collaborators consumed by `MailProcessor._process_envelope`:
body extraction, attachment extraction, `LLMClient.generate_reply`,
`EmailSender.send_mail` and `ImapClient.delete_message`. `Except.error e`
models a raised exception whose string representation is `e`. -/
structure MailCaps where
  extract_plain_text : MessageEnvelope → Except String String
  process_attachments : MessageEnvelope → Except String (List ProcessedAttachment)
  generate_reply : String → List ProcessedAttachment → Except String LLMReply
  send_mail : String → String → String → Except String Unit
  delete_message : String → Except String Unit

/-- The relevant slice of `AppConfig` from `mailassist/config.py`
(the network settings are consumed only by the external collaborators).
`AppConfig.__post_init__` guarantees `trusted_senders` is non-empty and
lower-cased. -/
structure AppConfig where
  trusted_senders : List String := ["andreas.maier@fau.de"]
  attachment_policy : AttachmentPolicy := {}
  queue_policy : QueuePolicy := {}
deriving DecidableEq, Repr

/-- Embeds `MailProcessor._determine_recipient`: without safe mode return
`reply.«to»`; with safe mode return the parsed sender address when non-empty
(Python string truthiness), else `self.config.trusted_senders[0]`
(`headD ""` — the config invariant makes the list non-empty, so the Python
indexing never raises). -/
def MailProcessor.determine_recipient (safe_mode : Bool) (fromAddress : String)
    (trusted_senders : List String) (reply : LLMReply) : String :=
  if !safe_mode then reply.«to»
  else if fromAddress ≠ "" then fromAddress
  else trusted_senders.headD ""

/-- The per-run observable state touched by the orchestrator: ledger entries
(recorded abstractly as (uid, metadata) resp. (uid, reason) pairs — their
file rendering is `ProcessorState` above), messages deleted via the mailbox
capability, and identifiers passed to the best-effort `mark_failed`. -/
structure RunState where
  deletedLog : List (String × List (String × String)) := []
  failedLog : List (String × String) := []
  deletedMessages : List String := []
  markedFailed : List String := []
deriving DecidableEq, Repr

/-- Embeds the `try` block of `MailProcessor._process_envelope` together
with `MailProcessor._handle_post_send` (`mailassist/processor.py`, lines
73-97): each fallible step propagates its error to the per-envelope
boundary; on full success, when `queue_policy.delete_after_success` holds,
the message is deleted and a "deleted" ledger entry is appended whose
metadata maps `"attachments"` to the comma-joined filenames of the
non-skipped attachments; otherwise the state is unchanged. -/
def MailProcessor.tryProcessEnvelope (caps : MailCaps) (config : AppConfig)
    (safe_mode : Bool) (st : RunState) (env : MessageEnvelope) :
    Except String RunState :=
  match caps.extract_plain_text env with
  | Except.error e => Except.error e
  | Except.ok body_text =>
    match caps.process_attachments env with
    | Except.error e => Except.error e
    | Except.ok attachments =>
      match caps.generate_reply body_text attachments with
      | Except.error e => Except.error e
      | Except.ok reply =>
        let recipient := MailProcessor.determine_recipient safe_mode
          env.fromAddress config.trusted_senders reply
        match caps.send_mail recipient reply.subject reply.body_text with
        | Except.error e => Except.error e
        | Except.ok _ =>
          if config.queue_policy.delete_after_success then
            match caps.delete_message env.uid with
            | Except.error e => Except.error e
            | Except.ok _ =>
              let summary := [("attachments",
                joinWith "," ((attachments.filter (fun a => !a.skipped)).map
                  (fun a => a.filename)))]
              Except.ok { st with
                deletedMessages := st.deletedMessages ++ [env.uid],
                deletedLog := st.deletedLog ++ [(env.uid, summary)] }
          else
            Except.ok st

/-- Embeds `MailProcessor._process_envelope`: run the `try` block; on any
error `e`, `self.state.record_failed(uid, reason=str(exc))` appends a
"failed" ledger entry `(uid, e)` and `self.imap_client.mark_failed(uid)` is
invoked (the `except` handler itself performs only these two effects, which
the model renders as total state updates). -/
def MailProcessor.processEnvelope (caps : MailCaps) (config : AppConfig)
    (safe_mode : Bool) (st : RunState) (env : MessageEnvelope) : RunState :=
  match MailProcessor.tryProcessEnvelope caps config safe_mode st env with
  | Except.ok st' => st'
  | Except.error e =>
      { st with
          failedLog := st.failedLog ++ [(env.uid, e)],
          markedFailed := st.markedFailed ++ [env.uid] }

/-- Embeds the loop of `MailProcessor.run` over the fetched envelopes
(`for envelope in envelopes: self._process_envelope(envelope)`). The fetch
itself is the external capability producing `envelopes`. -/
def MailProcessor.run (caps : MailCaps) (config : AppConfig) (safe_mode : Bool)
    (st : RunState) (envelopes : List MessageEnvelope) : RunState :=
  envelopes.foldl (MailProcessor.processEnvelope caps config safe_mode) st

/-- Specification vocabulary: how many of the five skip-reason categories of
§4.1 a reason string falls under — the forwarding-disabled, unsupported-type,
size-exceeded and no-text-extracted categories are the respective source
strings, and the extraction-failed category is "starts with
`Extraction failed: `" (the source renders it as that prefix followed by the
exception text), tested on the first 19 characters. -/
def skipReasonCount (r : String) : Nat :=
  (if r = "Attachment forwarding disabled by configuration" then 1 else 0) +
  (if r = "Unsupported file type" then 1 else 0) +
  (if r = "Attachment exceeds configured size limit" then 1 else 0) +
  (if r.data.take 19 = ("Extraction failed: " : String).data then 1 else 0) +
  (if r = "No textual content extracted" then 1 else 0)

/-- Specification vocabulary: a DOCX paragraph contributes to the extracted
text exactly when it has at least one non-empty text run. -/
def paragraphContributes (para : List (Option String)) : Bool :=
  !(paragraphText para).isEmpty

/-- Specification vocabulary: the per-paragraph strings collected by
`_extract_docx_text` before the final newline join (one entry per
contributing paragraph); `extract_docx_text` is their newline join by
definition. -/
def docxParagraphStrings (paras : List (List (Option String))) : List String :=
  paras.filterMap (fun para =>
    let texts := paragraphText para
    if texts.isEmpty then none else some (String.join texts))

example :
    processPart { include_pdf_docx := false } (fun _ _ => Except.ok "t")
      { filenameRaw := some "a.pdf", content_type := "application/pdf",
        payloadRaw := some [] } =
    { filename := "a.pdf", content_type := "application/pdf", size := 0,
      text := none, skipped := true,
      reason := some "Attachment forwarding disabled by configuration" } := by
  decide

example : extract_docx_text [[some "Hello"], [some "World"]] = "Hello\nWorld" := by
  decide

example : extract_docx_text [[some "Hello"], [none, some ""], [some "World"]] =
    "Hello\nWorld" := by
  decide

example :
    writeEntry "T" "7" (some [("reason", "boom")]) "old\n" =
    "old\ntimestamp=T | uid=7 | reason=boom\n" := by
  decide

example :
    writeEntry "T" "7" (some [("uid", "X"), ("k", "v")]) "" =
    "timestamp=T | uid=X | k=v\n" := by
  decide

theorem extfail_take (exc : String) :
    ("Extraction failed: " ++ exc).data.take 19 =
      ("Extraction failed: " : String).data := by
  have h : ("Extraction failed: " ++ exc).data
      = ("Extraction failed: " : String).data ++ exc.data := rfl
  have h19 : ("Extraction failed: " : String).data.length = 19 := rfl
  rw [h, ← h19, List.take_left]

theorem extraction_failed_ne (exc target : String)
    (h : target.data.take 19 ≠ ("Extraction failed: " : String).data) :
    "Extraction failed: " ++ exc ≠ target :=
  fun he => h (he ▸ extfail_take exc)

/-- Claim C3: for an attachment with a supported extension under a policy
with forwarding enabled, a decoded payload exactly at the configured byte
limit is NOT skipped for size, and a payload one byte over the limit IS
skipped for size — the boundary is inclusive of the limit
(`size > self.policy.max_attachment_size_bytes` in the source). -/
theorem size_boundary_inclusive (policy : AttachmentPolicy)
    (extract : String → List UInt8 → Except String String) (part : AttachmentPart)
    (henabled : policy.include_pdf_docx = true)
    (hext : infer_extension (attachmentFilename part) ∈ SUPPORTED_EXTENSIONS) :
    ((attachmentPayload part).length = policy.max_attachment_size_bytes →
      (processPart policy extract part).reason ≠
        some "Attachment exceeds configured size limit") ∧
    ((attachmentPayload part).length = policy.max_attachment_size_bytes + 1 →
      (processPart policy extract part).skipped = true ∧
      (processPart policy extract part).reason =
        some "Attachment exceeds configured size limit") := by
  constructor
  · intro hlen
    unfold processPart
    have hnotover : ¬ ((attachmentPayload part).length >
        policy.max_attachment_size_bytes) := by omega
    simp only [henabled, Bool.not_true, Bool.false_eq_true, if_false, hext,
      not_true_eq_false, hnotover]
    rcases hx : extract (infer_extension (attachmentFilename part))
        (attachmentPayload part) with e | t
    · simp only [hx]
      intro hc
      have hc' : "Extraction failed: " ++ e =
          "Attachment exceeds configured size limit" := by
        simpa using hc
      exact extraction_failed_ne e "Attachment exceeds configured size limit"
        (by decide) hc'
    · by_cases ht : t = "" <;> simp [hx, ht]
  · intro hlen
    unfold processPart
    have hover : (attachmentPayload part).length >
        policy.max_attachment_size_bytes := by omega
    simp [henabled, hext, hover]

/-- Claim C3 witness: with a zero-megabyte limit, an empty payload sits
exactly at the limit and is not size-skipped, while a one-byte payload is
size-skipped. -/
theorem size_boundary_inclusive_witness :
    (processPart { max_attachment_size_mb := 0 } (fun _ _ => Except.ok "t")
        { filenameRaw := some "a.pdf", content_type := "application/pdf",
          payloadRaw := some [] }).reason ≠
      some "Attachment exceeds configured size limit" ∧
    ((processPart { max_attachment_size_mb := 0 } (fun _ _ => Except.ok "t")
        { filenameRaw := some "b.pdf", content_type := "application/pdf",
          payloadRaw := some [37] }).skipped = true ∧
      (processPart { max_attachment_size_mb := 0 } (fun _ _ => Except.ok "t")
        { filenameRaw := some "b.pdf", content_type := "application/pdf",
          payloadRaw := some [37] }).reason =
        some "Attachment exceeds configured size limit") :=
  ⟨(size_boundary_inclusive { max_attachment_size_mb := 0 } (fun _ _ => Except.ok "t")
      { filenameRaw := some "a.pdf", content_type := "application/pdf",
        payloadRaw := some [] } (by decide) (by decide)).1 (by decide),
   (size_boundary_inclusive { max_attachment_size_mb := 0 } (fun _ _ => Except.ok "t")
      { filenameRaw := some "b.pdf", content_type := "application/pdf",
        payloadRaw := some [37] } (by decide) (by decide)).2 (by decide)⟩

/-- Claim C4 counterexample: with forwarding disabled, the attachment is
skipped, but the recorded reason is the source string "Attachment forwarding
disabled by configuration", not the claim's exact string "forwarding
disabled by configuration". -/
theorem forwarding_disabled_reason_counterexample :
    (processPart { include_pdf_docx := false } (fun _ _ => Except.ok "t")
        { filenameRaw := some "a.pdf", content_type := "application/pdf",
          payloadRaw := some [] }).skipped = true ∧
    (processPart { include_pdf_docx := false } (fun _ _ => Except.ok "t")
        { filenameRaw := some "a.pdf", content_type := "application/pdf",
          payloadRaw := some [] }).reason ≠
      some "forwarding disabled by configuration" ∧
    (processPart { include_pdf_docx := false } (fun _ _ => Except.ok "t")
        { filenameRaw := some "a.pdf", content_type := "application/pdf",
          payloadRaw := some [] }).reason =
      some "Attachment forwarding disabled by configuration" := by
  decide

/-- Claim C4 (amended): for every message and every attachment on it, if the
policy disables attachment forwarding then the resulting ProcessedAttachment
is skipped with reason "Attachment forwarding disabled by configuration" and
no text, regardless of file type, size or payload — the rule wins first. -/
theorem forwarding_disabled_skips_all (policy : AttachmentPolicy)
    (extract : String → List UInt8 → Except String String)
    (parts : List AttachmentPart) (pa : ProcessedAttachment)
    (hdis : policy.include_pdf_docx = false)
    (hmem : pa ∈ AttachmentProcessor.process policy extract parts) :
    pa.skipped = true ∧
    pa.reason = some "Attachment forwarding disabled by configuration" ∧
    pa.text = none := by
  rcases List.mem_map.mp hmem with ⟨part, -, rfl⟩
  unfold processPart
  simp [hdis]

/-- Claim C4 witness: a concrete PDF part under a disabled policy. -/
theorem forwarding_disabled_skips_all_witness :
    (processPart { include_pdf_docx := false } (fun _ _ => Except.ok "t")
        { filenameRaw := some "ok.pdf", content_type := "application/pdf",
          payloadRaw := some [1, 2] }).skipped = true ∧
    (processPart { include_pdf_docx := false } (fun _ _ => Except.ok "t")
        { filenameRaw := some "ok.pdf", content_type := "application/pdf",
          payloadRaw := some [1, 2] }).reason =
      some "Attachment forwarding disabled by configuration" ∧
    (processPart { include_pdf_docx := false } (fun _ _ => Except.ok "t")
        { filenameRaw := some "ok.pdf", content_type := "application/pdf",
          payloadRaw := some [1, 2] }).text = none :=
  forwarding_disabled_skips_all { include_pdf_docx := false }
    (fun _ _ => Except.ok "t")
    [{ filenameRaw := some "ok.pdf", content_type := "application/pdf",
       payloadRaw := some [1, 2] }] _ rfl (by decide)

/-- Claim C5: every ProcessedAttachment produced by
`AttachmentProcessor.process` satisfies `skipped = true` iff `text` is
absent, and when skipped its reason is present and falls under exactly one
of the five skip-reason categories. -/
theorem processed_attachment_invariant (policy : AttachmentPolicy)
    (extract : String → List UInt8 → Except String String)
    (parts : List AttachmentPart) (pa : ProcessedAttachment)
    (hmem : pa ∈ AttachmentProcessor.process policy extract parts) :
    (pa.skipped = true ↔ pa.text = none) ∧
    (pa.skipped = true → ∃ r, pa.reason = some r ∧ skipReasonCount r = 1) := by
  rcases List.mem_map.mp hmem with ⟨part, -, rfl⟩
  unfold processPart
  by_cases h1 : policy.include_pdf_docx
  · by_cases h2 : infer_extension (attachmentFilename part) ∈ SUPPORTED_EXTENSIONS
    · by_cases h3 : (attachmentPayload part).length > policy.max_attachment_size_bytes
      · simp [h1, h2, h3]
        decide
      · rcases hx : extract (infer_extension (attachmentFilename part))
            (attachmentPayload part) with e | t
        · have n1 := extraction_failed_ne e
            "Attachment forwarding disabled by configuration" (by decide)
          have n2 := extraction_failed_ne e "Unsupported file type" (by decide)
          have n3 := extraction_failed_ne e
            "Attachment exceeds configured size limit" (by decide)
          have n5 := extraction_failed_ne e "No textual content extracted" (by decide)
          simp [h1, h2, h3, hx]
          simp [skipReasonCount, n1, n2, n3, n5, extfail_take]
        · by_cases ht : t = ""
          · simp [h1, h2, h3, hx, ht]
            decide
          · simp [h1, h2, h3, hx, ht]
    · simp [h1, h2]
      decide
  · simp [h1]
    decide

/-- Claim C5 witness: an unsupported-extension attachment yields a skipped
record with the unsupported-type reason, satisfying the invariant. -/
theorem processed_attachment_invariant_witness :
    ((processPart {} (fun _ _ => Except.ok "text")
        { filenameRaw := some "a.txt", content_type := "text/plain",
          payloadRaw := some [] }).skipped = true ↔
      (processPart {} (fun _ _ => Except.ok "text")
        { filenameRaw := some "a.txt", content_type := "text/plain",
          payloadRaw := some [] }).text = none) ∧
    ((processPart {} (fun _ _ => Except.ok "text")
        { filenameRaw := some "a.txt", content_type := "text/plain",
          payloadRaw := some [] }).skipped = true →
      ∃ r, (processPart {} (fun _ _ => Except.ok "text")
        { filenameRaw := some "a.txt", content_type := "text/plain",
          payloadRaw := some [] }).reason = some r ∧ skipReasonCount r = 1) :=
  processed_attachment_invariant {} (fun _ _ => Except.ok "text")
    [{ filenameRaw := some "a.txt", content_type := "text/plain",
       payloadRaw := some [] }] _ (by simp [AttachmentProcessor.process])

/-- Claim C6: with safe mode active the final recipient is the parsed
From-header address, falling back to the first trusted sender when that
address is empty (unparseable); without safe mode it is the generated
recipient verbatim. -/
theorem safe_mode_recipient (fromAddress : String) (t : String)
    (ts : List String) (reply : LLMReply) :
    (MailProcessor.determine_recipient false fromAddress (t :: ts) reply
      = reply.«to») ∧
    (fromAddress ≠ "" →
      MailProcessor.determine_recipient true fromAddress (t :: ts) reply
        = fromAddress) ∧
    (fromAddress = "" →
      MailProcessor.determine_recipient true fromAddress (t :: ts) reply
        = t) := by
  refine ⟨rfl, fun h => ?_, fun h => ?_⟩ <;>
    simp [MailProcessor.determine_recipient, h]

/-- Claim C6 witness: concrete safe-mode and non-safe-mode recipients. -/
theorem safe_mode_recipient_witness :
    (MailProcessor.determine_recipient false "alice@example.org"
        ["trusted@example.org"]
        { «to» := "gen@example.org", subject := "s", body_text := "b" }
      = "gen@example.org") ∧
    (MailProcessor.determine_recipient true "alice@example.org"
        ["trusted@example.org"]
        { «to» := "gen@example.org", subject := "s", body_text := "b" }
      = "alice@example.org") ∧
    (MailProcessor.determine_recipient true "" ["trusted@example.org"]
        { «to» := "gen@example.org", subject := "s", body_text := "b" }
      = "trusted@example.org") :=
  ⟨(safe_mode_recipient "alice@example.org" "trusted@example.org" []
      { «to» := "gen@example.org", subject := "s", body_text := "b" }).1,
   (safe_mode_recipient "alice@example.org" "trusted@example.org" []
      { «to» := "gen@example.org", subject := "s", body_text := "b" }).2.1
      (by decide),
   (safe_mode_recipient "" "trusted@example.org" []
      { «to» := "gen@example.org", subject := "s", body_text := "b" }).2.2 rfl⟩

/-- Claim C1: any error raised inside an envelope's processing pipeline is
caught at the per-envelope boundary — `processEnvelope` is total, a "failed"
ledger entry carrying the error string is appended, `mark_failed` is invoked
for that envelope's uid, and the run simply continues with the remaining
envelopes (each run over a list folds `processEnvelope` over every
envelope). -/
theorem per_envelope_failure_isolated (caps : MailCaps) (config : AppConfig)
    (safe_mode : Bool) (st : RunState) (env : MessageEnvelope)
    (rest : List MessageEnvelope) (e : String)
    (herr : MailProcessor.tryProcessEnvelope caps config safe_mode st env
      = Except.error e) :
    MailProcessor.processEnvelope caps config safe_mode st env =
      { st with
          failedLog := st.failedLog ++ [(env.uid, e)],
          markedFailed := st.markedFailed ++ [env.uid] } ∧
    MailProcessor.run caps config safe_mode st (env :: rest) =
      MailProcessor.run caps config safe_mode
        (MailProcessor.processEnvelope caps config safe_mode st env) rest := by
  constructor
  · unfold MailProcessor.processEnvelope
    rw [herr]
  · rfl

/-- Claim C1 witness: a reply-generation failure on a concrete envelope is
recorded and the run proceeds over the remaining (empty) tail. -/
theorem per_envelope_failure_isolated_witness :
    MailProcessor.processEnvelope
      { extract_plain_text := fun _ => Except.ok "body",
        process_attachments := fun _ => Except.ok [],
        generate_reply := fun _ _ => Except.error "boom",
        send_mail := fun _ _ _ => Except.ok (),
        delete_message := fun _ => Except.ok () }
      {} false {} { uid := "42", fromAddress := "" } =
      { ({} : RunState) with
          failedLog := ([] : List (String × String)) ++ [("42", "boom")],
          markedFailed := ([] : List String) ++ ["42"] } ∧
    MailProcessor.run
      { extract_plain_text := fun _ => Except.ok "body",
        process_attachments := fun _ => Except.ok [],
        generate_reply := fun _ _ => Except.error "boom",
        send_mail := fun _ _ _ => Except.ok (),
        delete_message := fun _ => Except.ok () }
      {} false {} [{ uid := "42", fromAddress := "" }] =
      MailProcessor.run
        { extract_plain_text := fun _ => Except.ok "body",
          process_attachments := fun _ => Except.ok [],
          generate_reply := fun _ _ => Except.error "boom",
          send_mail := fun _ _ _ => Except.ok (),
          delete_message := fun _ => Except.ok () }
        {} false
        (MailProcessor.processEnvelope
          { extract_plain_text := fun _ => Except.ok "body",
            process_attachments := fun _ => Except.ok [],
            generate_reply := fun _ _ => Except.error "boom",
            send_mail := fun _ _ _ => Except.ok (),
            delete_message := fun _ => Except.ok () }
          {} false {} { uid := "42", fromAddress := "" }) [] :=
  per_envelope_failure_isolated
    { extract_plain_text := fun _ => Except.ok "body",
      process_attachments := fun _ => Except.ok [],
      generate_reply := fun _ _ => Except.error "boom",
      send_mail := fun _ _ _ => Except.ok (),
      delete_message := fun _ => Except.ok () }
    {} false {} { uid := "42", fromAddress := "" } [] "boom" rfl

/-- Claim C2: one processing cycle records exactly one outcome — on failure
exactly a "failed" entry, on success with delete-after-success exactly a
"deleted" entry, and on success without it no entry; in every case at most
one of the two ledgers grows, and the "failed" ledger always grows on
failure. -/
theorem exactly_one_ledger_outcome (caps : MailCaps) (config : AppConfig)
    (safe_mode : Bool) (st : RunState) (env : MessageEnvelope) :
    (∃ e, MailProcessor.tryProcessEnvelope caps config safe_mode st env
        = Except.error e ∧
      (MailProcessor.processEnvelope caps config safe_mode st env).failedLog
        = st.failedLog ++ [(env.uid, e)] ∧
      (MailProcessor.processEnvelope caps config safe_mode st env).deletedLog
        = st.deletedLog) ∨
    ((∃ st', MailProcessor.tryProcessEnvelope caps config safe_mode st env
        = Except.ok st') ∧
      config.queue_policy.delete_after_success = true ∧
      (∃ meta,
        (MailProcessor.processEnvelope caps config safe_mode st env).deletedLog
          = st.deletedLog ++ [(env.uid, meta)]) ∧
      (MailProcessor.processEnvelope caps config safe_mode st env).failedLog
        = st.failedLog) ∨
    ((∃ st', MailProcessor.tryProcessEnvelope caps config safe_mode st env
        = Except.ok st') ∧
      config.queue_policy.delete_after_success = false ∧
      (MailProcessor.processEnvelope caps config safe_mode st env).deletedLog
        = st.deletedLog ∧
      (MailProcessor.processEnvelope caps config safe_mode st env).failedLog
        = st.failedLog) := by
  rcases h1 : caps.extract_plain_text env with e | body_text
  · exact Or.inl ⟨e, by
      simp [MailProcessor.tryProcessEnvelope, h1], by
      simp [MailProcessor.processEnvelope, MailProcessor.tryProcessEnvelope, h1], by
      simp [MailProcessor.processEnvelope, MailProcessor.tryProcessEnvelope, h1]⟩
  · rcases h2 : caps.process_attachments env with e | attachments
    · exact Or.inl ⟨e, by
        simp [MailProcessor.tryProcessEnvelope, h1, h2], by
        simp [MailProcessor.processEnvelope, MailProcessor.tryProcessEnvelope, h1, h2], by
        simp [MailProcessor.processEnvelope, MailProcessor.tryProcessEnvelope, h1, h2]⟩
    · rcases h3 : caps.generate_reply body_text attachments with e | reply
      · exact Or.inl ⟨e, by
          simp [MailProcessor.tryProcessEnvelope, h1, h2, h3], by
          simp [MailProcessor.processEnvelope, MailProcessor.tryProcessEnvelope, h1, h2, h3], by
          simp [MailProcessor.processEnvelope, MailProcessor.tryProcessEnvelope, h1, h2, h3]⟩
      · rcases h4 : caps.send_mail
            (MailProcessor.determine_recipient safe_mode env.fromAddress
              config.trusted_senders reply) reply.subject reply.body_text with e | u
        · exact Or.inl ⟨e, by
            simp [MailProcessor.tryProcessEnvelope, h1, h2, h3, h4], by
            simp [MailProcessor.processEnvelope, MailProcessor.tryProcessEnvelope, h1, h2, h3, h4], by
            simp [MailProcessor.processEnvelope, MailProcessor.tryProcessEnvelope, h1, h2, h3, h4]⟩
        · rcases hd : config.queue_policy.delete_after_success with _ | _
          · refine Or.inr (Or.inr ⟨⟨st, ?_⟩, rfl, ?_, ?_⟩) <;>
              simp [MailProcessor.processEnvelope, MailProcessor.tryProcessEnvelope,
                h1, h2, h3, h4, hd]
          · rcases h5 : caps.delete_message env.uid with e | u'
            · exact Or.inl ⟨e, by
                simp [MailProcessor.tryProcessEnvelope, h1, h2, h3, h4, hd, h5], by
                simp [MailProcessor.processEnvelope, MailProcessor.tryProcessEnvelope, h1, h2, h3, h4, hd, h5], by
                simp [MailProcessor.processEnvelope, MailProcessor.tryProcessEnvelope, h1, h2, h3, h4, hd, h5]⟩
            · refine Or.inr (Or.inl ⟨⟨{ st with
                  deletedMessages := st.deletedMessages ++ [env.uid],
                  deletedLog := st.deletedLog ++ [(env.uid,
                    [("attachments", joinWith ","
                      ((attachments.filter (fun a => !a.skipped)).map
                        (fun a => a.filename)))])] }, ?_⟩, rfl,
                ⟨[("attachments", joinWith ","
                    ((attachments.filter (fun a => !a.skipped)).map
                      (fun a => a.filename)))], ?_⟩, ?_⟩) <;>
                simp [MailProcessor.processEnvelope, MailProcessor.tryProcessEnvelope,
                  h1, h2, h3, h4, hd, h5]

/-- Claim C7: a DOCX document whose body holds exactly the paragraphs
"Hello" and "World" in that order extracts to "Hello\nWorld" — paragraph
order preserved, paragraphs joined with a single newline. -/
theorem docx_roundtrip_hello_world :
    extract_docx_text [[some "Hello"], [some "World"]] = "Hello\nWorld" := by
  decide

theorem data_append (a b : String) : (a ++ b).data = a.data ++ b.data := rfl

theorem count_data_append (c : Char) (a b : String) :
    (a ++ b).data.count c = a.data.count c + b.data.count c := by
  rw [data_append, List.count_append]

theorem lookup_val_mem : ∀ (l : List (String × String)) (k v : String),
    List.lookup k l = some v → ∃ k2, (k2, v) ∈ l := by
  intro l
  induction l with
  | nil => intro k v h; simp [List.lookup] at h
  | cons kv t ih =>
    intro k v h
    rcases kv with ⟨k1, v1⟩
    rw [List.lookup] at h
    by_cases hk : k == k1
    · rw [hk] at h
      simp at h
      exact ⟨k1, by simp [h]⟩
    · rw [Bool.not_eq_true] at hk
      rw [hk] at h
      rcases ih k v h with ⟨k2, hm⟩
      exact ⟨k2, by simp [hm]⟩

theorem count_joinWith_zero (c : Char) (sep : String) (hsep : sep.data.count c = 0) :
    ∀ l : List String, (∀ s ∈ l, s.data.count c = 0) →
      (joinWith sep l).data.count c = 0
  | [], _ => rfl
  | [x], h => h x (by simp)
  | x :: y :: ys, h => by
      have ht := count_joinWith_zero c sep hsep (y :: ys)
        (fun s hs => h s (by simp at hs ⊢; tauto))
      show (x ++ sep ++ joinWith sep (y :: ys)).data.count c = 0
      rw [count_data_append, count_data_append, h x (by simp), hsep, ht]

theorem count_foldl_append (c : Char) : ∀ (l : List String) (acc : String),
    acc.data.count c = 0 → (∀ s ∈ l, s.data.count c = 0) →
    (l.foldl (fun r s => r ++ s) acc).data.count c = 0
  | [], _, hacc, _ => hacc
  | x :: xs, acc, hacc, h => by
      show (xs.foldl (fun r s => r ++ s) (acc ++ x)).data.count c = 0
      exact count_foldl_append c xs (acc ++ x)
        (by rw [count_data_append, hacc, h x (by simp)])
        (fun s hs => h s (by simp [hs]))

theorem count_join_zero (c : Char) (l : List String)
    (h : ∀ s ∈ l, s.data.count c = 0) : (String.join l).data.count c = 0 :=
  count_foldl_append c l "" rfl h

theorem writePayload_pairs (P : String → Prop) (timestamp uid : String)
    (m : List (String × String))
    (hkt : P "timestamp") (hku : P "uid") (hts : P timestamp) (huid : P uid)
    (hm : ∀ kv ∈ m, P kv.1 ∧ P kv.2) :
    ∀ kv ∈ writePayload timestamp uid (some m), P kv.1 ∧ P kv.2 := by
  intro kv hkv
  unfold writePayload at hkv
  by_cases he : m.isEmpty
  · simp [he] at hkv
    rcases hkv with h | h <;> simp [h, hkt, hku, hts, huid]
  · simp only [he, if_false, Bool.false_eq_true, if_neg] at hkv
    unfold dictUpdate at hkv
    rcases List.mem_append.mp hkv with hleft | hright
    · simp only [List.map_cons, List.map_nil, List.mem_cons,
        List.not_mem_nil, or_false] at hleft
      rcases hleft with h | h
      · rcases hl : List.lookup "timestamp" m with _ | v
        · rw [hl] at h; simp [h, hkt, hts]
        · rw [hl] at h
          rcases lookup_val_mem m "timestamp" v hl with ⟨k2, hmem⟩
          have := hm (k2, v) hmem
          simp [h, hkt, this.2]
      · rcases hl : List.lookup "uid" m with _ | v
        · rw [hl] at h; simp [h, hku, huid]
        · rw [hl] at h
          rcases lookup_val_mem m "uid" v hl with ⟨k2, hmem⟩
          have := hm (k2, v) hmem
          simp [h, hku, this.2]
    · exact hm kv (List.mem_of_mem_filter hright)

theorem renderEntryLine_count_zero (payload : List (String × String))
    (h : ∀ kv ∈ payload, kv.1.data.count '\n' = 0 ∧ kv.2.data.count '\n' = 0) :
    (renderEntryLine payload).data.count '\n' = 0 := by
  unfold renderEntryLine
  apply count_joinWith_zero _ _ (by decide)
  intro s hs
  rcases List.mem_map.mp hs with ⟨kv, hkv, rfl⟩
  have := h kv hkv
  rw [count_data_append, count_data_append, this.1, this.2]
  decide

/-- Claim C8 counterexample: `record_failed` with the newline-bearing reason
"a\nb" (exception strings can be multi-line) appends a chunk containing two
newlines to an empty failed log, so the call does not append exactly one
newline-terminated line. -/
theorem ledger_newline_reason_counterexample :
    (ProcessorState.record_failed "T" "7" "a\nb"
        { deleted := "", failed := "" }).failed
      = "timestamp=T | uid=7 | reason=a\nb\n" ∧
    ((ProcessorState.record_failed "T" "7" "a\nb"
        { deleted := "", failed := "" }).failed).data.count '\n' ≠
      ("" : String).data.count '\n' + 1 := by
  decide

/-- Claim C8 (amended): `record_deleted` and `record_failed` append the
rendered entry — `key=value` pairs (timestamp, uid, then metadata resp.
reason) joined by the fixed delimiter — followed by a single newline
terminator, to their own log only, leaving the other log and all previously
written content unchanged (the old content is literally a prefix of the
new). The appended chunk is exactly one newline-terminated line whenever
the identifier and the metadata/reason fields contain no newline
themselves. -/
theorem ledger_append_one_line (timestamp uid reason : String)
    (metadata : List (String × String)) (files : LedgerFiles) :
    ((ProcessorState.record_deleted timestamp uid (some metadata) files).deleted
        = files.deleted ++
          (renderEntryLine (writePayload timestamp uid (some metadata)) ++ "\n") ∧
      (ProcessorState.record_deleted timestamp uid (some metadata) files).failed
        = files.failed ∧
      (timestamp.data.count '\n' = 0 → uid.data.count '\n' = 0 →
        (∀ kv ∈ metadata, kv.1.data.count '\n' = 0 ∧ kv.2.data.count '\n' = 0) →
        ((ProcessorState.record_deleted timestamp uid (some metadata)
            files).deleted).data.count '\n'
          = files.deleted.data.count '\n' + 1)) ∧
    ((ProcessorState.record_failed timestamp uid reason files).failed
        = files.failed ++
          (renderEntryLine (writePayload timestamp uid
            (some [("reason", reason)])) ++ "\n") ∧
      (ProcessorState.record_failed timestamp uid reason files).deleted
        = files.deleted ∧
      (timestamp.data.count '\n' = 0 → uid.data.count '\n' = 0 →
        reason.data.count '\n' = 0 →
        ((ProcessorState.record_failed timestamp uid reason
            files).failed).data.count '\n'
          = files.failed.data.count '\n' + 1)) := by
  refine ⟨⟨?_, rfl, ?_⟩, ⟨?_, rfl, ?_⟩⟩
  · show files.deleted ++ renderEntryLine _ ++ "\n" = _
    rw [String.append_assoc]
  · intro hts huid hmeta
    have hline1 : (renderEntryLine (writePayload timestamp uid
        (some metadata))).data.count '\n' = 0 :=
      renderEntryLine_count_zero _
        (writePayload_pairs (fun s => s.data.count '\n' = 0) timestamp uid metadata
          (by decide) (by decide) hts huid hmeta)
    show (files.deleted ++ renderEntryLine _ ++ "\n").data.count '\n' = _
    have hn : ("\n" : String).data.count '\n' = 1 := rfl
    rw [count_data_append, count_data_append, hline1, hn]
  · show files.failed ++ renderEntryLine _ ++ "\n" = _
    rw [String.append_assoc]
  · intro hts huid hreason
    have hline2 : (renderEntryLine (writePayload timestamp uid
        (some [("reason", reason)]))).data.count '\n' = 0 :=
      renderEntryLine_count_zero _
        (writePayload_pairs (fun s => s.data.count '\n' = 0) timestamp uid
          [("reason", reason)] (by decide) (by decide) hts huid
          (by intro kv hkv; simp at hkv; simp [hkv, hreason]))
    show (files.failed ++ renderEntryLine _ ++ "\n").data.count '\n' = _
    have hn : ("\n" : String).data.count '\n' = 1 := rfl
    rw [count_data_append, count_data_append, hline2, hn]

/-- Claim C8 witness: a concrete deleted-record and failed-record write with
newline-free fields, adding exactly one line each. -/
theorem ledger_append_one_line_witness :
    ((ProcessorState.record_deleted "T" "7" (some [("attachments", "a.pdf")])
        { deleted := "old\n", failed := "f\n" }).deleted
        = "old\n" ++
          (renderEntryLine (writePayload "T" "7"
            (some [("attachments", "a.pdf")])) ++ "\n") ∧
      (ProcessorState.record_deleted "T" "7" (some [("attachments", "a.pdf")])
        { deleted := "old\n", failed := "f\n" }).failed = "f\n" ∧
      ((ProcessorState.record_deleted "T" "7" (some [("attachments", "a.pdf")])
          { deleted := "old\n", failed := "f\n" }).deleted).data.count '\n'
        = ("old\n" : String).data.count '\n' + 1) ∧
    ((ProcessorState.record_failed "T" "7" "boom"
        { deleted := "old\n", failed := "f\n" }).failed
        = "f\n" ++
          (renderEntryLine (writePayload "T" "7"
            (some [("reason", "boom")])) ++ "\n") ∧
      (ProcessorState.record_failed "T" "7" "boom"
        { deleted := "old\n", failed := "f\n" }).deleted = "old\n" ∧
      ((ProcessorState.record_failed "T" "7" "boom"
          { deleted := "old\n", failed := "f\n" }).failed).data.count '\n'
        = ("f\n" : String).data.count '\n' + 1) :=
  ⟨⟨(ledger_append_one_line "T" "7" "boom" [("attachments", "a.pdf")]
      { deleted := "old\n", failed := "f\n" }).1.1,
    (ledger_append_one_line "T" "7" "boom" [("attachments", "a.pdf")]
      { deleted := "old\n", failed := "f\n" }).1.2.1,
    (ledger_append_one_line "T" "7" "boom" [("attachments", "a.pdf")]
      { deleted := "old\n", failed := "f\n" }).1.2.2 (by decide) (by decide)
      (by intro kv hkv; simp at hkv; simp [hkv])⟩,
   ⟨(ledger_append_one_line "T" "7" "boom" [("attachments", "a.pdf")]
      { deleted := "old\n", failed := "f\n" }).2.1,
    (ledger_append_one_line "T" "7" "boom" [("attachments", "a.pdf")]
      { deleted := "old\n", failed := "f\n" }).2.2.1,
    (ledger_append_one_line "T" "7" "boom" [("attachments", "a.pdf")]
      { deleted := "old\n", failed := "f\n" }).2.2.2 (by decide) (by decide)
      (by decide)⟩⟩

theorem base_lookup_isNone (ts uid k : String) :
    (List.lookup k [("timestamp", ts), ("uid", uid)]).isNone
      = !(k == "timestamp" || k == "uid") := by
  by_cases h1 : k == "timestamp" <;> by_cases h2 : k == "uid" <;>
    simp [List.lookup, h1, h2]

/-- Claim C9: when the metadata handed to `record_deleted` contains a key
named "uid" or "timestamp", `payload.update(metadata)` replaces that
generated base value in place (position preserved), so the written line —
which renders exactly this payload — carries the caller-supplied value
instead of the passed identifier resp. the write-time timestamp. -/
theorem metadata_overrides_generated_fields (timestamp uid : String)
    (meta : List (String × String)) (files : LedgerFiles) :
    ((ProcessorState.record_deleted timestamp uid (some meta) files).deleted
      = files.deleted ++
        (renderEntryLine (writePayload timestamp uid (some meta)) ++ "\n")) ∧
    (∀ v, List.lookup "uid" meta = some v →
      (writePayload timestamp uid (some meta))[1]? = some ("uid", v)) ∧
    (∀ w, List.lookup "timestamp" meta = some w →
      (writePayload timestamp uid (some meta))[0]? = some ("timestamp", w)) := by
  refine ⟨?_, ?_, ?_⟩
  · show files.deleted ++ renderEntryLine (writePayload timestamp uid (some meta))
        ++ "\n" = _
    rw [String.append_assoc]
  · intro v hv
    have hne : meta.isEmpty = false := by
      cases meta with
      | nil => simp [List.lookup] at hv
      | cons a t => rfl
    have hstep : writePayload timestamp uid (some meta)
        = dictUpdate [("timestamp", timestamp), ("uid", uid)] meta := by
      unfold writePayload
      simp [hne]
    rw [hstep]
    unfold dictUpdate
    simp [hv]
  · intro w hw
    have hne : meta.isEmpty = false := by
      cases meta with
      | nil => simp [List.lookup] at hw
      | cons a t => rfl
    have hstep : writePayload timestamp uid (some meta)
        = dictUpdate [("timestamp", timestamp), ("uid", uid)] meta := by
      unfold writePayload
      simp [hne]
    rw [hstep]
    unfold dictUpdate
    simp [hw]

/-- Claim C9 witness: metadata carrying only a "uid" key overrides the uid
field, metadata carrying only a "timestamp" key overrides the timestamp
field, and the written line renders the overridden payload. -/
theorem metadata_overrides_generated_fields_witness :
    (writePayload "T" "7" (some [("uid", "U")]))[1]? = some ("uid", "U") ∧
    (writePayload "T" "7" (some [("timestamp", "W")]))[0]?
      = some ("timestamp", "W") ∧
    (ProcessorState.record_deleted "T" "7" (some [("uid", "U")])
        { deleted := "old\n", failed := "" }).deleted
      = "old\n" ++
        (renderEntryLine (writePayload "T" "7" (some [("uid", "U")])) ++ "\n") :=
  ⟨(metadata_overrides_generated_fields "T" "7" [("uid", "U")]
      { deleted := "old\n", failed := "" }).2.1 "U" (by decide),
   (metadata_overrides_generated_fields "T" "7" [("timestamp", "W")]
      { deleted := "old\n", failed := "" }).2.2 "W" (by decide),
   (metadata_overrides_generated_fields "T" "7" [("uid", "U")]
      { deleted := "old\n", failed := "" }).1⟩

theorem count_joinWith_newline : ∀ (l : List String), l ≠ [] →
    (∀ s ∈ l, s.data.count '\n' = 0) →
    (joinWith "\n" l).data.count '\n' + 1 = l.length
  | [], h, _ => absurd rfl h
  | [x], _, h => by
      show x.data.count '\n' + 1 = 1
      rw [h x (by simp)]
  | x :: y :: ys, _, h => by
      have ht := count_joinWith_newline (y :: ys) (by simp)
        (fun s hs => h s (by simp at hs ⊢; tauto))
      show (x ++ "\n" ++ joinWith "\n" (y :: ys)).data.count '\n' + 1
        = (x :: y :: ys).length
      rw [count_data_append, count_data_append, h x (by simp)]
      have hn : ("\n" : String).data.count '\n' = 1 := rfl
      rw [hn]
      simp only [List.length_cons] at ht ⊢
      omega

theorem extract_docx_text_eq_join (paras : List (List (Option String))) :
    extract_docx_text paras = joinWith "\n" (docxParagraphStrings paras) := rfl

theorem docxParagraphStrings_filter (paras : List (List (Option String))) :
    docxParagraphStrings (paras.filter paragraphContributes)
      = docxParagraphStrings paras := by
  induction paras with
  | nil => rfl
  | cons p ps ih =>
    unfold docxParagraphStrings at ih ⊢
    simp only [List.isEmpty_iff] at ih ⊢
    by_cases hp : paragraphText p = [] <;>
      simp [List.filter_cons, paragraphContributes, hp, List.filterMap_cons,
        List.isEmpty_iff, ih]

theorem docxParagraphStrings_length (paras : List (List (Option String))) :
    (docxParagraphStrings paras).length = List.countP paragraphContributes paras := by
  induction paras with
  | nil => rfl
  | cons p ps ih =>
    unfold docxParagraphStrings at ih ⊢
    simp only [List.isEmpty_iff] at ih ⊢
    by_cases hp : paragraphText p = [] <;>
      simp [List.filterMap_cons, paragraphContributes, hp, List.countP_cons,
        List.isEmpty_iff, ih]

theorem docxParagraphStrings_nl_free (paras : List (List (Option String)))
    (hnl : ∀ para ∈ paras, ∀ s ∈ paragraphText para, s.data.count '\n' = 0) :
    ∀ s ∈ docxParagraphStrings paras, s.data.count '\n' = 0 := by
  intro s hs
  rcases List.mem_filterMap.mp hs with ⟨para, hp, hc⟩
  by_cases he : (paragraphText para).isEmpty
  · simp [he] at hc
  · simp only [he, Bool.false_eq_true, if_neg, if_false, Option.some.injEq] at hc
    rw [← hc]
    exact count_join_zero '\n' (paragraphText para) (hnl para hp)

/-- Claim C10 counterexample: a document with a single paragraph whose one
text run contains a newline extracts to "a\nb": two newline-separated
segments (newline count 1, plus one) against a single paragraph with a
non-empty text run, so the claimed equality fails. -/
theorem docx_segment_count_counterexample :
    extract_docx_text [[some "a\nb"]] = "a\nb" ∧
    List.countP paragraphContributes [[some "a\nb"]] = 1 ∧
    (extract_docx_text [[some "a\nb"]]).data.count '\n' + 1 ≠
      List.countP paragraphContributes [[some "a\nb"]] := by
  decide

/-- Claim C10 (amended): paragraphs with no non-empty text run contribute
nothing — extraction is unchanged by dropping them, for every payload — and
whenever no text run contains a newline and at least one paragraph
contributes, the number of newline-separated segments of the result (its
newline count plus one) equals the number of paragraphs with at least one
non-empty text run. -/
theorem docx_empty_paragraphs_contribute_nothing
    (paras : List (List (Option String))) :
    extract_docx_text paras
      = extract_docx_text (paras.filter paragraphContributes) ∧
    ((∀ para ∈ paras, ∀ s ∈ paragraphText para, s.data.count '\n' = 0) →
      (∃ para ∈ paras, paragraphContributes para = true) →
      (extract_docx_text paras).data.count '\n' + 1
        = List.countP paragraphContributes paras) := by
  constructor
  · rw [extract_docx_text_eq_join, extract_docx_text_eq_join,
      docxParagraphStrings_filter]
  · intro hnl hne
    rw [extract_docx_text_eq_join, ← docxParagraphStrings_length]
    apply count_joinWith_newline
    · rcases hne with ⟨para, hp, hc⟩
      have hmem : String.join (paragraphText para) ∈ docxParagraphStrings paras := by
        apply List.mem_filterMap.mpr
        refine ⟨para, hp, ?_⟩
        have he : (paragraphText para).isEmpty = false := by
          unfold paragraphContributes at hc
          simpa using hc
        simp [he]
      intro hempty
      rw [hempty] at hmem
      exact List.not_mem_nil _ hmem
    · exact docxParagraphStrings_nl_free paras hnl

/-- Claim C10 witness: a three-paragraph document whose middle paragraph has
no non-empty run extracts as if that paragraph were absent, with two
segments for its two contributing paragraphs. -/
theorem docx_empty_paragraphs_contribute_nothing_witness :
    extract_docx_text [[some "Hello"], [none, some ""], [some "World"]]
      = extract_docx_text
          ([[some "Hello"], [none, some ""], [some "World"]].filter
            paragraphContributes) ∧
    (extract_docx_text
        [[some "Hello"], [none, some ""], [some "World"]]).data.count '\n' + 1
      = List.countP paragraphContributes
          [[some "Hello"], [none, some ""], [some "World"]] :=
  ⟨(docx_empty_paragraphs_contribute_nothing
      [[some "Hello"], [none, some ""], [some "World"]]).1,
   (docx_empty_paragraphs_contribute_nothing
      [[some "Hello"], [none, some ""], [some "World"]]).2 (by decide) (by decide)⟩
